import Mathlib

/-!
Shallow embedding of parts of the three-body simulator:

* the seeded PRNG utilities of `src/utils/random.ts` (`createSeededRandom`,
  the mulberry32 generator, and `pickRandom`), and
* the ring station-keeping controller factory `makeRosetteController`.

JavaScript numbers are modelled exactly: the mulberry32 state as naturals
reduced modulo 2^32 (every bitwise coercion in the source keeps a 32-bit
pattern), the generator outputs as rationals, and the controller arithmetic
over the real numbers.  Strings are modelled as lists of characters, and a
JavaScript runtime fault (reading a property of `undefined` after an
out-of-range array access) is modelled as `none`.
-/

/-- 2^32 = 4294967296, the modulus of JavaScript's 32-bit integer coercions
and the divisor of the mulberry32 output. -/
def U32 : ℕ := 2 ^ 32

/-- One state update of mulberry32: `s = (s + 0x6d2b79f5) | 0`, kept as the
unsigned 32-bit pattern of the wrapped sum. -/
def mulberryNext (s : ℕ) : ℕ := (s + 0x6d2b79f5) % U32

/-- `Math.imul(a, b)`: the 32-bit pattern of the product. -/
def imul32 (a b : ℕ) : ℕ := (a * b) % U32

/-- The output scrambling of mulberry32 applied to the (updated) state `s`:
`t = imul(s ^ (s >>> 15), 1 | s); t ^= t + imul(t ^ (t >>> 7), 61 | t);
return (t ^ (t >>> 14)) >>> 0`.  Unsigned right shift by `k` of a 32-bit
pattern is division by `2 ^ k`; the coercion of the sum `t + imul(...)` by the
xor takes it modulo 2^32. -/
def mulberryScramble (s : ℕ) : ℕ :=
  let t1 := imul32 (s ^^^ (s / 2 ^ 15)) (1 ||| s)
  let t2 := t1 ^^^ ((t1 + imul32 (t1 ^^^ (t1 / 2 ^ 7)) (61 ||| t1)) % U32)
  t2 ^^^ (t2 / 2 ^ 14)

/-- The state of the generator of `createSeededRandom(seed)` after `k` calls:
the initial state is `seed >>> 0` (the seed taken modulo 2^32), and every call
first advances the state by `mulberryNext`. -/
def mulberryState (seed : ℤ) : ℕ → ℕ
  | 0 => (seed % (U32 : ℤ)).toNat
  | k + 1 => mulberryNext (mulberryState seed k)

/-- The value produced by the `k`-th call (0-based) of the generator returned
by `createSeededRandom(seed)`: the scrambled updated state divided by
4294967296.  The division is exact in JavaScript (a 32-bit integer divided by
a power of two), so the value is modelled as a rational. -/
def mulberryValue (seed : ℤ) (k : ℕ) : ℚ :=
  (mulberryScramble (mulberryState seed (k + 1)) : ℚ) / (4294967296 : ℚ)

/-- JavaScript array indexing `items[idx]` with an arbitrary integer index:
a negative or out-of-range index yields `undefined`, modelled as `none`. -/
def jsIndex {α : Type} (items : List α) (idx : ℤ) : Option α :=
  if idx < 0 then none else items[idx.toNat]?

/-- `pickRandom(rand, items)` from `src/utils/random.ts`, where `r` is the
value produced by the single call `rand()`.  The `throw new Error(...)` on an
empty array is modelled as `Except.error` carrying the thrown message. -/
def pickRandom {α : Type} (r : ℚ) (items : List α) : Except String (Option α) :=
  if items.length = 0 then Except.error (r"Cannot pick from an empty array")
  else Except.ok (jsIndex items ⌊r * (items.length : ℚ)⌋)

noncomputable section

/-- Three real components, as the `{x, y, z}` vector records of the source. -/
structure Vec3 where
  x : ℝ
  y : ℝ
  z : ℝ

namespace Vec3

/-- The zero vector `{x: 0, y: 0, z: 0}`. -/
def zero : Vec3 := ⟨0, 0, 0⟩

def add (u v : Vec3) : Vec3 := ⟨u.x + v.x, u.y + v.y, u.z + v.z⟩

def sub (u v : Vec3) : Vec3 := ⟨u.x - v.x, u.y - v.y, u.z - v.z⟩

def smul (a : ℝ) (v : Vec3) : Vec3 := ⟨a * v.x, a * v.y, a * v.z⟩

/-- Componentwise division by a scalar, as in `cx /= mSum` or `{x: rx / r}`. -/
def sdiv (v : Vec3) (a : ℝ) : Vec3 := ⟨v.x / a, v.y / a, v.z / a⟩

def dot (u v : Vec3) : ℝ := u.x * v.x + u.y * v.y + u.z * v.z

def cross (u v : Vec3) : Vec3 :=
  ⟨u.y * v.z - u.z * v.y, u.z * v.x - u.x * v.z, u.x * v.y - u.y * v.x⟩

/-- `Math.hypot(x, y, z)`: the Euclidean magnitude. -/
def norm (v : Vec3) : ℝ := Real.sqrt (v.x ^ 2 + v.y ^ 2 + v.z ^ 2)

end Vec3

/-- A body of the simulation (`BodyState` of `types.ts`, fields as in the
spec's data model).  Names and colors are modelled as lists of characters. -/
structure BodyState where
  name : List Char
  mass : ℝ
  radius : ℝ
  color : List Char
  isStar : Bool
  position : Vec3
  velocity : Vec3

/-- JavaScript `v || d` for a non-negative number `v`: the fallback `d` is
taken exactly when `v` is zero, the only falsy non-negative number. -/
def orDefault (v d : ℝ) : ℝ := if v = 0 then d else v

/-- `Math.hypot(x, y)`. -/
def hypot2 (x y : ℝ) : ℝ := Real.sqrt (x ^ 2 + y ^ 2)

/-- `Math.atan2(y, x)`, modelled as the argument of the complex number
`x + y i` (range `(-pi, pi]`, zero at the origin, as in JavaScript up to the
unrepresentable signed zeros). -/
def atan2 (y x : ℝ) : ℝ := Complex.arg ⟨x, y⟩

/-- `b.name.startsWith('Petal')`. -/
def isPetal (b : BodyState) : Bool :=
  List.isPrefixOf ['P', 'e', 't', 'a', 'l'] b.name

/-- The petal indices of the initial snapshot:
`initialBodies.map((b, i) => ({b, i})).filter(x => x.b.name.startsWith('Petal')).map(x => x.i)`. -/
def petalIdx (initial : List BodyState) : List ℕ :=
  (initial.enum.filter (fun p => isPetal p.2)).map (fun p => p.1)

/-- The ring members read back from the initial snapshot at the petal indices
(the `initialBodies[i]` of the construction loops; every petal index is in
range of the snapshot it was derived from). -/
def petalBodies (initial : List BodyState) : List BodyState :=
  (petalIdx initial).filterMap (fun i => initial[i]?)

/-- Radial stiffness gain `k_r = 0.08`. -/
def k_r : ℝ := 0.08

/-- Radial damping gain `k_dr = 0.18`. -/
def k_dr : ℝ := 0.18

/-- Tangential stiffness gain `k_t = 0.12`. -/
def k_t : ℝ := 0.12

/-- Tangential damping gain `k_dt = 0.08`. -/
def k_dt : ℝ := 0.08

/-- Drag coefficient `k_c = 0.02`. -/
def k_c : ℝ := 0.02

/-- Acceleration (thrust) cap `a_max = 0.04`. -/
def a_max : ℝ := 0.04

/-- Target radius `r*`: the mass-weighted average of the petals' initial 3-D
radial distances from the origin, with fallback preset radius 12 when the
total petal mass is not positive. -/
def rStar (initial : List BodyState) : ℝ :=
  let l := petalBodies initial
  let mSum := (l.map (fun b => b.mass)).sum
  let mrSum := (l.map (fun b => b.mass * Vec3.norm b.position)).sum
  if mSum > 0 then mrSum / mSum else 12

/-- Per-petal summand of `omegaStar`: `b.mass * (vt / r)` with
`r = Math.hypot(x, y) || 1e-6`, `theta = Math.atan2(y, x)` and
`vt = -vx * sin(theta) + vy * cos(theta)`. -/
def omegaTerm (b : BodyState) : ℝ :=
  let r := orDefault (hypot2 b.position.x b.position.y) (1e-6)
  let θ := atan2 b.position.y b.position.x
  let vt := -b.velocity.x * Real.sin θ + b.velocity.y * Real.cos θ
  b.mass * (vt / r)

/-- Target angular speed `omega*`: the mass-weighted average of the petals'
initial tangential velocity over planar radius, 0 when the total petal mass is
not positive. -/
def omegaStar (initial : List BodyState) : ℝ :=
  let l := petalBodies initial
  let mSum := (l.map (fun b => b.mass)).sum
  let s := (l.map omegaTerm).sum
  if mSum > 0 then s / mSum else 0

/-- The constants the returned law closes over, all fixed once at
construction from the initial snapshot (the gains are global constants). -/
structure RosetteConsts where
  petalIdx : List ℕ
  rStar : ℝ
  omegaStar : ℝ

/-- The construction phase of `makeRosetteController`. -/
def mkConsts (initial : List BodyState) : RosetteConsts :=
  ⟨petalIdx initial, rStar initial, omegaStar initial⟩

/-- Sum of a list of vectors (the componentwise accumulations of the source
loops). -/
def sumV (l : List Vec3) : Vec3 := l.foldl Vec3.add Vec3.zero

/-- The unclamped per-member correction: centroid-relative decomposition into
radial and tangential directions, the two PD terms, and the drag, exactly as
in the evaluation loop of the returned law. -/
def memberPre (K : RosetteConsts) (c cv nv : Vec3) (b : BodyState) : Vec3 :=
  let rv := Vec3.sub b.position c
  let vv := Vec3.sub b.velocity cv
  let r := orDefault (Vec3.norm rv) (1e-9)
  let rhat := Vec3.sdiv rv r
  let t0 := Vec3.cross nv rhat
  let tn := orDefault (Vec3.norm t0) (1e-9)
  let that := Vec3.sdiv t0 tn
  let vr := Vec3.dot vv rhat
  let vt := Vec3.dot vv that
  let a_r := -k_r * (r - K.rStar) - k_dr * vr
  let a_t := -k_t * (vt - K.omegaStar * r) - k_dt * vt
  Vec3.sub (Vec3.add (Vec3.smul a_r rhat) (Vec3.smul a_t that)) (Vec3.smul k_c vv)

/-- The magnitude clamp: if the magnitude exceeds `a_max`, rescale by
`a_max / aN`. -/
def capVec (v : Vec3) : Vec3 :=
  let aN := Vec3.norm v
  if aN > a_max then Vec3.smul (a_max / aN) v else v

/-- The full per-member correction actually stored into the output array. -/
def memberCorr (K : RosetteConsts) (c cv nv : Vec3) (b : BodyState) : Vec3 :=
  capVec (memberPre K c cv nv b)

/-- One evaluation of the returned AccelerationLaw.  The zero array of length
`state.length` is the early result when there are no petals or when the
petal mass sum is not positive; an out-of-range access `state[i]` of a petal
index (a TypeError at `b.mass` in the source) is modelled as `none`.  The
elapsed-time argument is ignored, as in the source. -/
def evalLaw (K : RosetteConsts) (state : List BodyState) (_t : ℝ) :
    Option (List Vec3) :=
  let n := state.length
  let acc0 := List.replicate n Vec3.zero
  if K.petalIdx.length = 0 then some acc0
  else
    match K.petalIdx.mapM (fun i => state[i]?) with
    | none => none
    | some pl =>
      let mSum := (pl.map (fun b => b.mass)).sum
      if mSum ≤ 0 then some acc0
      else
        let c := Vec3.sdiv (sumV (pl.map (fun b => Vec3.smul b.mass b.position))) mSum
        let cv := Vec3.sdiv (sumV (pl.map (fun b => Vec3.smul b.mass b.velocity))) mSum
        let lmom := sumV (pl.map (fun b =>
          Vec3.smul b.mass (Vec3.cross (Vec3.sub b.position c) (Vec3.sub b.velocity cv))))
        let ln := orDefault (Vec3.norm lmom) 1
        let nv := Vec3.sdiv lmom ln
        some (state.enum.map (fun p =>
          if p.1 ∈ K.petalIdx then memberCorr K c cv nv p.2 else Vec3.zero))

/-- `makeRosetteController(initialBodies)`: fixes the closed-over constants
from the initial snapshot and returns the evaluation law. -/
def makeRosetteController (initial : List BodyState) :
    List BodyState → ℝ → Option (List Vec3) :=
  evalLaw (mkConsts initial)

/-- Spec-side (C3): the mass-weighted mean of the members' 3-D Euclidean
radial distances from the origin. -/
def specRStar (l : List BodyState) : ℝ :=
  (l.map (fun b => b.mass * Vec3.norm b.position)).sum / (l.map (fun b => b.mass)).sum

/-- The planar (cylindrical) radial distance of a body from the origin. -/
def planarR (b : BodyState) : ℝ := hypot2 b.position.x b.position.y

/-- Spec-side (C4): the tangential (azimuthal) velocity of a body about the
origin, `(x vy - y vx) / r`. -/
def specTangVel (b : BodyState) : ℝ :=
  (b.position.x * b.velocity.y - b.position.y * b.velocity.x) / planarR b

/-- Spec-side (C4): the mass-weighted mean of tangential velocity over radial
distance. -/
def specOmegaStar (l : List BodyState) : ℝ :=
  (l.map (fun b => b.mass * (specTangVel b / planarR b))).sum /
    (l.map (fun b => b.mass)).sum

/-- A one-body snapshot with no petal members (used as a concrete instance in
witnesses). -/
def noPetalInit : List BodyState :=
  [⟨['S', 'u', 'n'], 1, 1, ['r', 'e', 'd'], true, Vec3.zero, Vec3.zero⟩]

/-- A concrete petal body at position (3, 4, 0) with mass 2. -/
def pEx : BodyState :=
  ⟨['P', 'e', 't', 'a', 'l', '-', '1'], 2, 1, ['r', 'e', 'd'], false,
    ⟨3, 4, 0⟩, ⟨0, 1, 0⟩⟩

/-- A one-petal snapshot (used as a concrete instance in witnesses). -/
def petalInit : List BodyState := [pEx]

end

section Helpers

theorem Vec3.norm_nonneg (v : Vec3) : 0 ≤ Vec3.norm v := Real.sqrt_nonneg _

theorem Vec3.norm_zero_vec : Vec3.norm Vec3.zero = 0 := by
  simp [Vec3.norm, Vec3.zero]

theorem Vec3.norm_smul (a : ℝ) (v : Vec3) :
    Vec3.norm (Vec3.smul a v) = |a| * Vec3.norm v := by
  unfold Vec3.norm Vec3.smul
  rw [show (a * v.x) ^ 2 + (a * v.y) ^ 2 + (a * v.z) ^ 2
      = a ^ 2 * (v.x ^ 2 + v.y ^ 2 + v.z ^ 2) by ring,
    Real.sqrt_mul (sq_nonneg a), Real.sqrt_sq_eq_abs]

theorem orDefault_of_ne {v : ℝ} (d : ℝ) (h : v ≠ 0) : orDefault v d = v := by
  simp [orDefault, h]

theorem orDefault_of_eq_zero {v : ℝ} (d : ℝ) (h : v = 0) : orDefault v d = d := by
  simp [orDefault, h]

theorem orDefault_pos {v d : ℝ} (hv : 0 ≤ v) (hd : 0 < d) : 0 < orDefault v d := by
  unfold orDefault
  by_cases h : v = 0
  · simpa [h] using hd
  · simpa [h] using lt_of_le_of_ne hv (Ne.symm h)

theorem a_max_pos : 0 < a_max := by norm_num [a_max]

theorem norm_capVec_le (v : Vec3) : Vec3.norm (capVec v) ≤ a_max := by
  unfold capVec
  by_cases hv : Vec3.norm v > a_max
  · rw [if_pos hv, Vec3.norm_smul]
    have hn : Vec3.norm v ≠ 0 := ne_of_gt (lt_trans a_max_pos hv)
    have hs : 0 ≤ a_max / Vec3.norm v :=
      div_nonneg a_max_pos.le (Vec3.norm_nonneg v)
    rw [abs_of_nonneg hs, div_mul_cancel₀ _ hn]
  · rw [if_neg hv]
    exact not_lt.mp hv

theorem mem_petalIdx {l : List BodyState} {i : ℕ} :
    i ∈ petalIdx l ↔ ∃ h : i < l.length, isPetal (l.get ⟨i, h⟩) = true := by
  unfold petalIdx
  simp only [List.mem_map, List.mem_filter, List.mem_enum_iff_getElem?]
  constructor
  · rintro ⟨⟨j, b⟩, ⟨hj, hb⟩, rfl⟩
    rcases List.getElem?_eq_some_iff.mp hj with ⟨hlt, hget⟩
    exact ⟨hlt, by simpa [List.get_eq_getElem, hget] using hb⟩
  · rintro ⟨hlt, hpet⟩
    exact ⟨(i, l.get ⟨i, hlt⟩),
      ⟨by simp [List.getElem?_eq_getElem hlt, List.get_eq_getElem], by simpa using hpet⟩, rfl⟩

theorem mapM_getElem_of_lt {idx : List ℕ} {state : List BodyState}
    (h : ∀ i ∈ idx, i < state.length) :
    ∃ pl, idx.mapM (fun i => state[i]?) = some pl := by
  induction idx with
  | nil => exact ⟨[], rfl⟩
  | cons a l ih =>
    obtain ⟨pl, hpl⟩ := ih (fun i hi => h i (List.mem_cons_of_mem _ hi))
    have ha : a < state.length := h a (List.mem_cons_self _ _)
    refine ⟨state[a] :: pl, ?_⟩
    rw [List.mapM_cons]
    simp only [hpl, List.getElem?_eq_getElem ha]
    rfl

theorem sin_atan2 (y x : ℝ) : Real.sin (atan2 y x) = y / hypot2 x y := by
  unfold atan2 hypot2
  rw [Complex.sin_arg]
  congr 1
  rw [Complex.abs_apply, Complex.normSq_mk]
  congr 1
  ring

theorem complex_mk_ne_zero {x y : ℝ} (h : hypot2 x y ≠ 0) : (⟨x, y⟩ : ℂ) ≠ 0 := by
  intro hz
  apply h
  have hx : x = 0 := by simpa using congrArg Complex.re hz
  have hy : y = 0 := by simpa using congrArg Complex.im hz
  simp [hypot2, hx, hy]

theorem cos_atan2 (y x : ℝ) (h : hypot2 x y ≠ 0) :
    Real.cos (atan2 y x) = x / hypot2 x y := by
  unfold atan2
  rw [Complex.cos_arg (complex_mk_ne_zero h)]
  unfold hypot2
  congr 1
  rw [Complex.abs_apply, Complex.normSq_mk]
  congr 1
  ring

theorem petal_masses_sum_pos {initial : List BodyState}
    (hne : petalBodies initial ≠ [])
    (hm : ∀ b ∈ petalBodies initial, 0 < b.mass) :
    0 < ((petalBodies initial).map (fun b => b.mass)).sum := by
  apply List.sum_pos
  · intro x hx
    obtain ⟨b, hb, rfl⟩ := List.mem_map.mp hx
    exact hm b hb
  · simpa [List.map_eq_nil_iff] using hne

end Helpers

/-- C9: every state of the mulberry32 generator is a 32-bit value, and every
value it produces is a 32-bit unsigned integer divided by 4294967296, hence
lies in the half-open unit interval [0, 1). -/
theorem mulberry_values_in_unit_interval (seed : ℤ) (k : ℕ) :
    mulberryState seed k < U32
    ∧ 0 ≤ mulberryValue seed k ∧ mulberryValue seed k < 1 := by
  have hU : 0 < U32 := by norm_num [U32]
  refine ⟨?_, ?_, ?_⟩
  · cases k with
    | zero =>
      have h1 : (0 : ℤ) ≤ seed % (U32 : ℤ) :=
        Int.emod_nonneg seed (by norm_num [U32])
      have h2 : seed % (U32 : ℤ) < (U32 : ℤ) :=
        Int.emod_lt_of_pos seed (by exact_mod_cast hU)
      exact (Int.toNat_lt h1).mpr h2
    | succ n => exact Nat.mod_lt _ hU
  · exact div_nonneg (Nat.cast_nonneg _) (by norm_num)
  · have hlt : mulberryScramble (mulberryState seed (k + 1)) < U32 := by
      unfold mulberryScramble
      have h2 : imul32 (mulberryState seed (k + 1) ^^^ (mulberryState seed (k + 1) / 2 ^ 15))
          (1 ||| mulberryState seed (k + 1)) < 2 ^ 32 := Nat.mod_lt _ (by norm_num [U32])
      have h3 : ∀ a b : ℕ, (a + imul32 (a ^^^ (a / 2 ^ 7)) (61 ||| b)) % U32 < 2 ^ 32 :=
        fun a b => Nat.mod_lt _ (by norm_num [U32])
      have h4 : ∀ t : ℕ, t < 2 ^ 32 → t ^^^ (t / 2 ^ 14) < 2 ^ 32 := by
        intro t ht
        exact Nat.xor_lt_two_pow ht (lt_of_le_of_lt (Nat.div_le_self _ _) ht)
      exact h4 _ (Nat.xor_lt_two_pow h2 (h3 _ _))
    unfold mulberryValue
    rw [div_lt_one (by norm_num)]
    have : (U32 : ℚ) = 4294967296 := by norm_num [U32]
    calc (mulberryScramble (mulberryState seed (k + 1)) : ℚ)
        < (U32 : ℚ) := by exact_mod_cast hlt
      _ = 4294967296 := this

/-- C10: `pickRandom` throws exactly on the empty list; for a generator value
`r` with `0 ≤ r < 1` and non-empty `items` it returns
`items[Math.floor(r * items.length)]`, which is an element of the list. -/
theorem pickRandom_spec {α : Type} (r : ℚ) (items : List α) :
    ((∃ e, pickRandom r items = Except.error e) ↔ items = [])
    ∧ (0 ≤ r → r < 1 → items ≠ [] →
        ∃ a, pickRandom r items = Except.ok (some a) ∧ a ∈ items
          ∧ items[(⌊r * (items.length : ℚ)⌋).toNat]? = some a) := by
  constructor
  · constructor
    · rintro ⟨e, he⟩
      by_contra hne
      have hlen : ¬ items.length = 0 := by
        simpa [List.length_eq_zero] using hne
      simp [pickRandom, hlen] at he
    · intro h
      subst h
      exact ⟨(r"Cannot pick from an empty array"), by simp [pickRandom]⟩
  · intro h0 h1 hne
    have hlen : ¬ items.length = 0 := by
      simpa [List.length_eq_zero] using hne
    have hlpos : 0 < items.length := Nat.pos_of_ne_zero hlen
    have hfl0 : (0 : ℤ) ≤ ⌊r * (items.length : ℚ)⌋ :=
      Int.floor_nonneg.mpr (mul_nonneg h0 (Nat.cast_nonneg _))
    have hflt : ⌊r * (items.length : ℚ)⌋ < (items.length : ℤ) := by
      apply Int.floor_lt.mpr
      have hcast : (0 : ℚ) < (items.length : ℚ) := by exact_mod_cast hlpos
      calc r * (items.length : ℚ) < 1 * (items.length : ℚ) :=
            mul_lt_mul_of_pos_right h1 hcast
        _ = ((items.length : ℤ) : ℚ) := by push_cast; ring
    have hidx : (⌊r * (items.length : ℚ)⌋).toNat < items.length :=
      (Int.toNat_lt hfl0).mpr hflt
    refine ⟨items[(⌊r * (items.length : ℚ)⌋).toNat], ?_, List.getElem_mem hidx,
      List.getElem?_eq_getElem hidx⟩
    simp [pickRandom, hlen, jsIndex, not_lt.mpr hfl0, List.getElem?_eq_getElem hidx]

/-- C10 witness: at r = 1/2 over a two-element list the picked element is the
second one. -/
theorem pickRandom_spec_witness :
    ∃ a, pickRandom (1/2 : ℚ) ([10, 20] : List ℕ) = Except.ok (some a)
      ∧ a ∈ ([10, 20] : List ℕ)
      ∧ ([10, 20] : List ℕ)[(⌊(1/2 : ℚ) * ((([10, 20] : List ℕ).length : ℕ) : ℚ)⌋).toNat]?
          = some a :=
  (pickRandom_spec (1/2) [10, 20]).2 (by norm_num) (by norm_num) (by simp)

section LawShape

theorem evalLaw_isSome (K : RosetteConsts) (state : List BodyState) (t : ℝ)
    (hin : ∀ i ∈ K.petalIdx, i < state.length) :
    (evalLaw K state t).isSome = true := by
  simp only [evalLaw]
  split
  · rfl
  · split
    · rename_i hnone
      obtain ⟨pl, hpl⟩ := mapM_getElem_of_lt hin
      rw [hnone] at hpl
      cases hpl
    · split
      · rfl
      · rfl

theorem evalLaw_some_shape {initial state : List BodyState} {t : ℝ} {res : List Vec3}
    (h : makeRosetteController initial state t = some res) :
    res = List.replicate state.length Vec3.zero
    ∨ ∃ c cv nv : Vec3, res = state.enum.map (fun p =>
        if p.1 ∈ petalIdx initial then memberCorr (mkConsts initial) c cv nv p.2
        else Vec3.zero) := by
  simp only [makeRosetteController, evalLaw] at h
  split at h
  · exact Or.inl (Option.some.inj h).symm
  · split at h
    · exact absurd h (by simp)
    · split at h
      · exact Or.inl (Option.some.inj h).symm
      · exact Or.inr ⟨_, _, _, (Option.some.inj h).symm⟩

end LawShape

/-- C1: the law returned by `makeRosetteController` returns the zero correction
for every index outside its target subset — the petal indices, which are
exactly the indices of the initial snapshot whose body name starts with
'Petal' — and when that subset is empty every returned correction is the zero
vector. -/
theorem rosette_zero_outside_subset (initial state : List BodyState) (t : ℝ)
    (res : List Vec3) (h : makeRosetteController initial state t = some res) :
    (∀ i, i ∈ petalIdx initial ↔
        ∃ hi : i < initial.length, isPetal (initial.get ⟨i, hi⟩) = true)
    ∧ (∀ i (hi : i < res.length), i ∉ petalIdx initial → res.get ⟨i, hi⟩ = Vec3.zero)
    ∧ (petalIdx initial = [] → ∀ w ∈ res, w = Vec3.zero) := by
  refine ⟨fun i => mem_petalIdx, ?_, ?_⟩
  · intro i hi hip
    rcases evalLaw_some_shape h with hr | ⟨c, cv, nv, hr⟩
    · subst hr
      rw [List.get_eq_getElem, List.getElem_replicate]
    · subst hr
      rw [List.get_eq_getElem, List.getElem_map, List.getElem_enum]
      exact if_neg hip
  · intro hpe w hw
    rcases evalLaw_some_shape h with hr | ⟨c, cv, nv, hr⟩
    · subst hr
      exact List.eq_of_mem_replicate hw
    · subst hr
      obtain ⟨p, hp, rfl⟩ := List.mem_map.mp hw
      simp [hpe]

/-- C1 witness: at a concrete evaluation with an empty target subset, the
returned correction at index 0 (which is outside the subset) is zero. -/
theorem rosette_zero_outside_subset_witness :
    ([Vec3.zero] : List Vec3).get ⟨0, Nat.zero_lt_one⟩ = Vec3.zero := by
  have h : makeRosetteController noPetalInit noPetalInit 0 = some [Vec3.zero] := rfl
  exact (rosette_zero_outside_subset noPetalInit noPetalInit 0 [Vec3.zero] h).2.1 0
    Nat.zero_lt_one (by decide)

/-- C2: every correction returned by the ring station-keeper has Euclidean
magnitude at most the cap `a_max`, and whenever the unclamped magnitude
exceeds `a_max` the clamp rescales the vector by `a_max / aN`, preserving its
direction. -/
theorem rosette_corrections_capped (initial state : List BodyState) (t : ℝ)
    (res : List Vec3) (h : makeRosetteController initial state t = some res) :
    (∀ w ∈ res, Vec3.norm w ≤ a_max)
    ∧ ∀ v : Vec3, a_max < Vec3.norm v →
        capVec v = Vec3.smul (a_max / Vec3.norm v) v := by
  constructor
  · intro w hw
    rcases evalLaw_some_shape h with hr | ⟨c, cv, nv, hr⟩
    · subst hr
      rw [List.eq_of_mem_replicate hw, Vec3.norm_zero_vec]
      exact a_max_pos.le
    · subst hr
      obtain ⟨p, hp, rfl⟩ := List.mem_map.mp hw
      by_cases hmem : p.1 ∈ petalIdx initial
      · rw [if_pos hmem]
        exact norm_capVec_le _
      · rw [if_neg hmem, Vec3.norm_zero_vec]
        exact a_max_pos.le
  · intro v hv
    simp only [capVec]
    rw [if_pos hv]

/-- C2 witness: a concrete returned correction obeys the cap. -/
theorem rosette_corrections_capped_witness : Vec3.norm Vec3.zero ≤ a_max := by
  have h : makeRosetteController noPetalInit noPetalInit 0 = some [Vec3.zero] := rfl
  exact (rosette_corrections_capped noPetalInit noPetalInit 0 [Vec3.zero] h).1
    Vec3.zero (by simp)

/-- C3: with a non-empty ring subset all of whose members have positive mass,
the target radius r* computed at construction is the mass-weighted mean of the
members' 3-D Euclidean radial distances from the origin. -/
theorem rosette_rStar_mass_weighted (initial : List BodyState)
    (hne : petalBodies initial ≠ [])
    (hm : ∀ b ∈ petalBodies initial, 0 < b.mass) :
    rStar initial = specRStar (petalBodies initial) := by
  have hpos := petal_masses_sum_pos hne hm
  simp only [rStar, specRStar]
  rw [if_pos hpos]

/-- C3 witness: one petal of mass 2 at (3, 4, 0). -/
theorem rosette_rStar_mass_weighted_witness :
    rStar petalInit = specRStar (petalBodies petalInit) := by
  have he : petalBodies petalInit = [pEx] := rfl
  apply rosette_rStar_mass_weighted
  · rw [he]
    simp
  · intro b hb
    rw [he, List.mem_singleton] at hb
    subst hb
    norm_num [pEx]

/-- C4: with a non-empty ring subset of positive masses, each member at
nonzero planar distance from the origin, the target angular speed computed at
construction is the mass-weighted mean of tangential velocity over radial
distance taken about the origin. -/
theorem rosette_omegaStar_mass_weighted (initial : List BodyState)
    (hne : petalBodies initial ≠ [])
    (hm : ∀ b ∈ petalBodies initial, 0 < b.mass)
    (hr : ∀ b ∈ petalBodies initial, planarR b ≠ 0) :
    omegaStar initial = specOmegaStar (petalBodies initial) := by
  have hpos := petal_masses_sum_pos hne hm
  have hterm : ∀ b ∈ petalBodies initial,
      omegaTerm b = b.mass * (specTangVel b / planarR b) := by
    intro b hb
    have hrb : hypot2 b.position.x b.position.y ≠ 0 := hr b hb
    simp only [omegaTerm]
    rw [orDefault_of_ne _ hrb, sin_atan2, cos_atan2 _ _ hrb]
    simp only [specTangVel, planarR]
    ring
  simp only [omegaStar, specOmegaStar]
  rw [if_pos hpos, List.map_congr_left hterm]

/-- C4 witness: one petal of mass 2 at (3, 4, 0) with velocity (0, 1, 0). -/
theorem rosette_omegaStar_mass_weighted_witness :
    omegaStar petalInit = specOmegaStar (petalBodies petalInit) := by
  have he : petalBodies petalInit = [pEx] := rfl
  apply rosette_omegaStar_mass_weighted
  · rw [he]
    simp
  · intro b hb
    rw [he, List.mem_singleton] at hb
    subst hb
    norm_num [pEx]
  · intro b hb
    rw [he, List.mem_singleton] at hb
    subst hb
    have h5 : planarR pEx = 5 := by
      simp only [planarR, hypot2, pEx]
      rw [show (3 : ℝ) ^ 2 + 4 ^ 2 = 5 ^ 2 by norm_num,
        Real.sqrt_sq (by norm_num : (0 : ℝ) ≤ 5)]
    rw [h5]
    norm_num

/-- C5: for each ring member the pre-clamp Cartesian correction equals
`a_r * r_hat + a_t * t_hat + (-k_c) * v` with the radial PD term
`a_r = k_r (r* - r) - k_dr v_r` and the tangential PD term
`a_t = k_t (omega* r - v_t) - k_dt v_t`, where `r_hat` is the
centroid-relative radial unit vector, `t_hat` the normalized cross product of
the orbital-plane normal with `r_hat`, and `v` the centroid-relative
velocity. -/
theorem rosette_member_pd_formula (K : RosetteConsts) (c cv nv : Vec3)
    (b : BodyState) :
    memberPre K c cv nv b =
      (let rv := Vec3.sub b.position c
       let vv := Vec3.sub b.velocity cv
       let r := orDefault (Vec3.norm rv) (1e-9)
       let rhat := Vec3.sdiv rv r
       let t0 := Vec3.cross nv rhat
       let that := Vec3.sdiv t0 (orDefault (Vec3.norm t0) (1e-9))
       let vr := Vec3.dot vv rhat
       let vt := Vec3.dot vv that
       let a_r := k_r * (K.rStar - r) - k_dr * vr
       let a_t := k_t * (K.omegaStar * r - vt) - k_dt * vt
       Vec3.add (Vec3.add (Vec3.smul a_r rhat) (Vec3.smul a_t that))
         (Vec3.smul (-k_c) vv)) := by
  simp only [memberPre, Vec3.add, Vec3.sub, Vec3.smul, Vec3.sdiv, Vec3.dot,
    Vec3.cross, Vec3.mk.injEq]
  refine ⟨by ring, by ring, by ring⟩

/-- C6: evaluation of the ring station-keeper never divides by zero and never
surfaces the degeneracies as errors: whenever every target index is within the
input state, the law returns a value (the error-free branch is the only
reachable one); a zero total angular momentum makes the normalizing magnitude
fall back to 1; and each epsilon-guarded divisor (the momentum norm, the
radial norm with floor 1e-9 and the planar radius with floor 1e-6) is
positive whenever the guarded quantity is non-negative. -/
theorem rosette_no_degenerate_division (initial state : List BodyState) (t : ℝ)
    (hin : ∀ i ∈ petalIdx initial, i < state.length) :
    (makeRosetteController initial state t).isSome = true
    ∧ (∀ lmom : Vec3, Vec3.norm lmom = 0 → orDefault (Vec3.norm lmom) 1 = 1)
    ∧ (∀ x : ℝ, 0 ≤ x →
        0 < orDefault x 1 ∧ 0 < orDefault x (1e-9) ∧ 0 < orDefault x (1e-6)) := by
  refine ⟨evalLaw_isSome (mkConsts initial) state t hin, ?_, ?_⟩
  · intro lmom h
    rw [orDefault_of_eq_zero _ h]
  · intro x hx
    exact ⟨orDefault_pos hx (by norm_num), orDefault_pos hx (by norm_num),
      orDefault_pos hx (by norm_num)⟩

/-- C6 witness: a concrete in-range evaluation with one petal body returns a
value. -/
theorem rosette_no_degenerate_division_witness :
    (makeRosetteController petalInit petalInit 0).isSome = true :=
  (rosette_no_degenerate_division petalInit petalInit 0 (by decide)).1

/-- C7: the law returned by `makeRosetteController` is the evaluation function
applied to constants fixed once at construction from the initial snapshot
(it closes over no other data), and as a pure function it is deterministic:
any two evaluations on equal (state, elapsed-time) inputs return equal
correction sequences. -/
theorem rosette_stateless_deterministic (initial : List BodyState) :
    makeRosetteController initial = evalLaw (mkConsts initial)
    ∧ ∀ (s s' : List BodyState) (t t' : ℝ), s = s' → t = t' →
        evalLaw (mkConsts initial) s t = evalLaw (mkConsts initial) s' t' :=
  ⟨rfl, fun s s' t t' hs ht => by rw [hs, ht]⟩

/-- C7 witness: two evaluations at equal concrete inputs agree. -/
theorem rosette_stateless_deterministic_witness :
    evalLaw (mkConsts petalInit) petalInit 0 = evalLaw (mkConsts petalInit) petalInit 0 :=
  (rosette_stateless_deterministic petalInit).2 petalInit petalInit 0 0 rfl rfl

/-- C8 counterexample: with one petal at index 0 of the snapshot and the empty
list as input state, the law does not return a 0-entry sequence — the
evaluation faults on the out-of-range access `state[0]` (in the source,
reading `.mass` of `undefined` throws a TypeError). -/
theorem rosette_length_counterexample :
    makeRosetteController petalInit [] 0 = none := rfl

/-- C8 (amended): whenever every target index is below the input state's
length — in particular whenever the state has the construction-time length —
the law returns exactly `state.length` corrections, and the entry at index i
is a function of i and of body i alone (given the closed-over context), i.e.
the output is index-aligned with the input state. -/
theorem rosette_length_aligned (initial state : List BodyState) (t : ℝ)
    (hin : ∀ i ∈ petalIdx initial, i < state.length) :
    ∃ res, makeRosetteController initial state t = some res
      ∧ res.length = state.length
      ∧ ∃ g : ℕ → BodyState → Vec3, res = state.enum.map (fun p => g p.1 p.2) := by
  have hs := evalLaw_isSome (mkConsts initial) state t hin
  obtain ⟨res, hres⟩ := Option.isSome_iff_exists.mp hs
  refine ⟨res, hres, ?_, ?_⟩
  · rcases evalLaw_some_shape hres with hr | ⟨c, cv, nv, hr⟩
    · rw [hr, List.length_replicate]
    · rw [hr, List.length_map, List.enum_length]
  · rcases evalLaw_some_shape hres with hr | ⟨c, cv, nv, hr⟩
    · refine ⟨fun _ _ => Vec3.zero, ?_⟩
      rw [hr]
      simp [List.map_const', List.enum_length]
    · exact ⟨fun i b => if i ∈ petalIdx initial
        then memberCorr (mkConsts initial) c cv nv b else Vec3.zero, hr⟩

/-- C8 witness: a concrete in-range evaluation is index-aligned. -/
theorem rosette_length_aligned_witness :
    ∃ res, makeRosetteController petalInit petalInit 0 = some res
      ∧ res.length = petalInit.length
      ∧ ∃ g : ℕ → BodyState → Vec3, res = petalInit.enum.map (fun p => g p.1 p.2) :=
  rosette_length_aligned petalInit petalInit 0 (by decide)
